import Mathlib

/-!
Verification of the Pure_Path backend enrichment and ranking pipeline
(`backend/routes.py`, `backend/geocoding.py`, `backend/aqi_service.py`).

The Python code is shallowly embedded: Python floats are modelled as `ℚ`
(exact arithmetic), Python dict caches as association lists from keys to
`(expiry timestamp, value)` pairs, `time.time()` as an explicit `now : ℚ`
argument, `Optional[T]` as `Option T`, and external network calls as
function parameters supplied by the caller.  Fallible code returns
`Except`.  All definitions are executable and decidable on concrete input.
-/

namespace PurePath

/-- A coordinate, a pair of rationals.  The meaning of the components
    (lon,lat vs lat,lon) follows the source function being modelled. -/
abbrev Coord := ℚ × ℚ

/-! ### Expiring in-memory cache (`routes.py` lines 46-61)

A Python dict `key -> (expiry_ts, value)` is modelled as an association
list; assignment conses the new binding and removes the old one, so
lookup by first match agrees with the dict. -/

/-- The cache state: key to `(expiry timestamp, value)`. -/
abbrev CacheMap (K V : Type) := List (K × (ℚ × V))

/-- Dict lookup `cache.get(key)`. -/
def cache_lookup {K V : Type} [DecidableEq K] (c : CacheMap K V) (k : K) :
    Option (ℚ × V) :=
  (c.find? (fun p => decide (p.1 = k))).map (·.2)

/-- Dict deletion `del cache[key]`. -/
def cache_del {K V : Type} [DecidableEq K] (c : CacheMap K V) (k : K) :
    CacheMap K V :=
  c.filter (fun p => decide (¬ p.1 = k))

/-- `cache_get(cache, key)` from `routes.py`: a miss returns `none`; an
    entry whose expiry lies strictly in the past is deleted and treated as
    a miss; otherwise the stored value is returned.  The (possibly
    mutated) cache is returned alongside the result. -/
def cache_get {K V : Type} [DecidableEq K] (c : CacheMap K V) (now : ℚ)
    (k : K) : Option V × CacheMap K V :=
  match cache_lookup c k with
  | none => (none, c)
  | some (exp, val) => if exp < now then (none, cache_del c k) else (some val, c)

/-- `cache_set(cache, key, ttl, val)` from `routes.py`: stores
    `(now + ttl, val)` under `key`. -/
def cache_set {K V : Type} [DecidableEq K] (c : CacheMap K V) (now : ℚ)
    (k : K) (ttl : ℚ) (v : V) : CacheMap K V :=
  (k, (now + ttl, v)) :: cache_del c k

lemma cache_lookup_set_self {K V : Type} [DecidableEq K] (c : CacheMap K V)
    (now : ℚ) (k : K) (ttl : ℚ) (v : V) :
    cache_lookup (cache_set c now k ttl v) k = some (now + ttl, v) := by
  simp [cache_lookup, cache_set, List.find?]

lemma cache_lookup_del_self {K V : Type} [DecidableEq K] (c : CacheMap K V)
    (k : K) : cache_lookup (cache_del c k) k = none := by
  have h : (cache_del c k).find? (fun p => decide (p.1 = k)) = none := by
    rw [List.find?_eq_none]
    intro x hx
    have := (List.mem_filter.mp hx).2
    simpa using this
  simp [cache_lookup, h]

/-- C9: a `get` immediately after `set(key, v, ttl)` (with positive `ttl`)
    returns `v`; a `get` at any time strictly past the expiry timestamp
    `t + ttl` returns absent and removes the entry from the cache. -/
theorem cache_set_get_roundtrip {K V : Type} [DecidableEq K]
    (c : CacheMap K V) (k : K) (v : V) (t ttl t' : ℚ)
    (httl : 0 < ttl) (hlate : t + ttl < t') :
    (cache_get (cache_set c t k ttl v) t k).1 = some v ∧
    (cache_get (cache_set c t k ttl v) t' k).1 = none ∧
    cache_lookup (cache_get (cache_set c t k ttl v) t' k).2 k = none := by
  refine ⟨?_, ?_, ?_⟩
  · rw [cache_get, cache_lookup_set_self]
    have : ¬ t + ttl < t := by linarith
    simp [this]
  · rw [cache_get, cache_lookup_set_self]
    simp [hlate]
  · rw [cache_get, cache_lookup_set_self]
    simp only [if_pos hlate]
    exact cache_lookup_del_self _ _

/-- Witness for C9 at a concrete instance. -/
theorem cache_set_get_roundtrip_witness :
    (cache_get (cache_set ([] : CacheMap String ℚ) 0 "k" 10 (5 : ℚ)) 0 "k").1
        = some 5 ∧
    (cache_get (cache_set ([] : CacheMap String ℚ) 0 "k" 10 (5 : ℚ)) 11 "k").1
        = none ∧
    cache_lookup
        (cache_get (cache_set ([] : CacheMap String ℚ) 0 "k" 10 (5 : ℚ)) 11 "k").2
        "k" = none :=
  cache_set_get_roundtrip [] "k" 5 0 10 11 (by norm_num) (by norm_num)

/-! ### Stable sorting

Python's `list.sort(key=...)` is a stable sort by the key.  It is modelled
by insertion sort inserting each element before the first element that is
greater or equal, which preserves the original relative order of
equal-key elements. -/

/-- Insert `a` before the first element `b` of `l` with `le a b`. -/
def orderedInsert {α : Type} (le : α → α → Bool) (a : α) : List α → List α
  | [] => [a]
  | b :: l => if le a b then a :: b :: l else b :: orderedInsert le a l

/-- Stable insertion sort with comparator `le`. -/
def insertionSort {α : Type} (le : α → α → Bool) : List α → List α
  | [] => []
  | a :: l => orderedInsert le a (insertionSort le l)

lemma mem_orderedInsert {α : Type} (le : α → α → Bool) (a x : α)
    (l : List α) : x ∈ orderedInsert le a l ↔ x = a ∨ x ∈ l := by
  induction l with
  | nil => simp [orderedInsert]
  | cons b t ih =>
      by_cases h : le a b
      · simp [orderedInsert, h]
      · simp [orderedInsert, h, ih]
        tauto

lemma mem_insertionSort {α : Type} (le : α → α → Bool) (x : α)
    (l : List α) : x ∈ insertionSort le l ↔ x ∈ l := by
  induction l with
  | nil => simp [insertionSort]
  | cons a t ih => simp [insertionSort, mem_orderedInsert, ih]

lemma orderedInsert_congr {α : Type} (le₁ le₂ : α → α → Bool) (a : α)
    (l : List α) (h : ∀ b ∈ l, le₁ a b = le₂ a b) :
    orderedInsert le₁ a l = orderedInsert le₂ a l := by
  induction l with
  | nil => rfl
  | cons b t ih =>
      have hb := h b (by simp)
      by_cases hab : le₁ a b
      · simp [orderedInsert, hab, hb ▸ hab]
      · have hab₂ : le₂ a b = false := by rw [← hb]; simpa using hab
        simp [orderedInsert, hab, hab₂]
        exact ih (fun b hbmem => h b (by simp [hbmem]))

lemma insertionSort_congr {α : Type} (le₁ le₂ : α → α → Bool)
    (l : List α) (h : ∀ a ∈ l, ∀ b ∈ l, le₁ a b = le₂ a b) :
    insertionSort le₁ l = insertionSort le₂ l := by
  induction l with
  | nil => rfl
  | cons a t ih =>
      have ht : insertionSort le₁ t = insertionSort le₂ t :=
        ih (fun x hx y hy => h x (by simp [hx]) y (by simp [hy]))
      rw [insertionSort, insertionSort, ht]
      exact orderedInsert_congr le₁ le₂ a _ (fun b hb =>
        h a (by simp) b (by simp [(mem_insertionSort le₂ b t).mp hb]))

/-! ### Route ranking (`routes.py` `rank_routes_best`, lines 87-117) -/

/-- A ranking candidate: the fields of the route dicts that
    `rank_routes_best` reads (`duration_s`, `avg_aqi`), plus a tag
    standing for the rest of the payload (so that two candidates with
    equal fields can still be distinguished). -/
structure RouteCand where
  duration_s : Option ℚ
  avg_aqi : Option ℚ
  tag : Nat
deriving DecidableEq, Repr

/-- Python's `min` over a list of numbers (`none` on the empty list). -/
def pyMin (l : List ℚ) : Option ℚ :=
  match l with
  | [] => none
  | x :: xs => some (xs.foldl min x)

lemma foldl_min_mem (xs : List ℚ) (x : ℚ) : xs.foldl min x ∈ x :: xs := by
  induction xs generalizing x with
  | nil => simp
  | cons y ys ih =>
      have h := ih (min x y)
      rw [List.foldl]
      rcases List.mem_cons.mp h with h' | h'
      · rw [h']
        rcases min_choice x y with hm | hm <;> simp [hm]
      · simp [h']

lemma pyMin_mem {l : List ℚ} {m : ℚ} (h : pyMin l = some m) : m ∈ l := by
  match l with
  | [] => simp [pyMin] at h
  | x :: xs =>
      simp only [pyMin, Option.some.injEq] at h
      rw [← h]
      exact foldl_min_mem xs x

/-- `min_duration = min(durations) if durations else 1` where `durations`
    collects the present `duration_s` fields. -/
def min_duration_of (routes : List RouteCand) : ℚ :=
  (pyMin (routes.filterMap (·.duration_s))).getD 1

/-- `min_aqi = min(aqis) if aqis else None` where `aqis` collects the
    present `avg_aqi` fields. -/
def min_aqi_of (routes : List RouteCand) : Option ℚ :=
  pyMin (routes.filterMap (·.avg_aqi))

/-- The per-candidate score of `rank_routes_best`:
    `time_ratio = duration / min_duration if min_duration else 999`;
    if the candidate's `avg_aqi` or the global `min_aqi` is absent the
    score is `time_ratio`, otherwise
    `0.65 * time_ratio + 0.35 * aqi_ratio` with
    `aqi_ratio = avg_aqi / min_aqi if min_aqi else 999`. -/
def scoreOf (minD : ℚ) (minA : Option ℚ) (r : RouteCand) : ℚ :=
  let duration := r.duration_s.getD 0
  let time_ratio := if minD = 0 then 999 else duration / minD
  match r.avg_aqi, minA with
  | some a, some mA =>
      (65 / 100 : ℚ) * time_ratio +
        (35 / 100 : ℚ) * (if mA = 0 then 999 else a / mA)
  | _, _ => time_ratio

/-- The comparator "score of `a` at most score of `b`". -/
def scoreLE (minD : ℚ) (minA : Option ℚ) (a b : RouteCand) : Bool :=
  decide (scoreOf minD minA a ≤ scoreOf minD minA b)

/-- `rank_routes_best(routes_out, limit)`: score every candidate, sort
    ascending by score (stable), return the first `limit` entries. -/
def rank_routes_best (routes : List RouteCand) (limit : Nat) :
    List RouteCand :=
  if routes.isEmpty then []
  else
    (insertionSort (scoreLE (min_duration_of routes) (min_aqi_of routes))
        routes).take limit

/-- Comparator "duration ascending" (absent duration read as 0, exactly
    as the scoring code does). -/
def durationLE (a b : RouteCand) : Bool :=
  decide (a.duration_s.getD 0 ≤ b.duration_s.getD 0)

/-- The three candidates of the ranking scenario: durations
    `[100, 120, 90]` with qualities `[80, 40, 200]`. -/
def demoRanking : List RouteCand :=
  [⟨some 100, some 80, 0⟩, ⟨some 120, some 40, 1⟩, ⟨some 90, some 200, 2⟩]

/-- C1: the ranker computes `minDuration` as the minimum of the present
    durations (1 if none present) and `minAqi` as the minimum of the
    present `avg_aqi` values; a candidate with `avg_aqi` present scores
    `0.65 * duration / minDuration + 0.35 * avg_aqi / minAqi`; and on
    durations `[100, 120, 90]` with qualities `[80, 40, 200]` the order
    is B, A, C, so with limit 2 the result is `[B, A]`. -/
theorem rank_score_formula_and_example :
    (∀ (routes : List RouteCand) (r : RouteCand), r ∈ routes →
      ∀ d a mA : ℚ, r.duration_s = some d → r.avg_aqi = some a →
        min_aqi_of routes = some mA → min_duration_of routes ≠ 0 → mA ≠ 0 →
        scoreOf (min_duration_of routes) (min_aqi_of routes) r
          = (65 / 100 : ℚ) * (d / min_duration_of routes)
            + (35 / 100 : ℚ) * (a / mA)) ∧
    rank_routes_best demoRanking 2
      = [⟨some 120, some 40, 1⟩, ⟨some 100, some 80, 0⟩] ∧
    rank_routes_best demoRanking 3
      = [⟨some 120, some 40, 1⟩, ⟨some 100, some 80, 0⟩,
         ⟨some 90, some 200, 2⟩] := by
  have hAB : scoreLE 90 (some 40) ⟨some 100, some 80, 0⟩
      ⟨some 120, some 40, 1⟩ = false := by
    simp only [scoreLE, scoreOf, decide_eq_false_iff_not]
    norm_num
  have hBC : scoreLE 90 (some 40) ⟨some 120, some 40, 1⟩
      ⟨some 90, some 200, 2⟩ = true := by
    simp only [scoreLE, scoreOf, decide_eq_true_eq]
    norm_num
  have hAC : scoreLE 90 (some 40) ⟨some 100, some 80, 0⟩
      ⟨some 90, some 200, 2⟩ = true := by
    simp only [scoreLE, scoreOf, decide_eq_true_eq]
    norm_num
  have hminD : min_duration_of demoRanking = 90 := rfl
  have hminA : min_aqi_of demoRanking = some 40 := rfl
  refine ⟨?_, ?_, ?_⟩
  · intro routes r _ d a mA hd ha hmA hD hA
    simp [scoreOf, hd, ha, hmA, hD, hA]
  · rw [rank_routes_best, hminD, hminA]
    simp only [demoRanking, List.isEmpty_cons, Bool.false_eq_true, if_false,
      insertionSort, orderedInsert, hAB, hBC, hAC, if_true, List.take]
  · rw [rank_routes_best, hminD, hminA]
    simp only [demoRanking, List.isEmpty_cons, Bool.false_eq_true, if_false,
      insertionSort, orderedInsert, hAB, hBC, hAC, if_true, List.take]

/-- Witness for C1: the score formula evaluated at candidate A of the
    scenario (`d = 100`, `a = 80`, `minAqi = 40`). -/
theorem rank_score_formula_and_example_witness :
    scoreOf (min_duration_of demoRanking) (min_aqi_of demoRanking)
        ⟨some 100, some 80, 0⟩
      = (65 / 100 : ℚ) * (100 / min_duration_of demoRanking)
        + (35 / 100 : ℚ) * (80 / 40) :=
  rank_score_formula_and_example.1 demoRanking ⟨some 100, some 80, 0⟩
    (by decide) 100 80 40 rfl rfl (by decide) (by decide) (by norm_num)

/-- C6 counterexample: with no quality data anywhere and durations
    `[5, 3, 0]`, the minimum duration is 0, every time ratio collapses to
    the constant 999, and the stable sort keeps the input order — the
    output is not the input sorted by duration ascending. -/
theorem rank_not_duration_sorted :
    rank_routes_best
        [⟨some 5, none, 0⟩, ⟨some 3, none, 1⟩, ⟨some 0, none, 2⟩] 3
      ≠ (insertionSort durationLE
          [⟨some 5, none, 0⟩, ⟨some 3, none, 1⟩, ⟨some 0, none, 2⟩]).take 3 := by
  decide

/-- C6 amended: if no candidate carries quality data and every candidate
    has a present, positive duration, then `rank` equals the stable sort
    of the input by duration ascending, truncated to `limit`. -/
theorem rank_all_aqi_missing_sorts_by_duration (routes : List RouteCand)
    (limit : Nat)
    (haqi : ∀ r ∈ routes, r.avg_aqi = none)
    (hdur : ∀ r ∈ routes, ∃ d : ℚ, r.duration_s = some d ∧ 0 < d) :
    rank_routes_best routes limit
      = (insertionSort durationLE routes).take limit := by
  cases routes with
  | nil => simp [rank_routes_best, insertionSort]
  | cons r0 rest =>
    have haqinil : (r0 :: rest).filterMap (·.avg_aqi) = [] :=
      List.filterMap_eq_nil_iff.mpr (fun r hr => haqi r hr)
    have hminA : min_aqi_of (r0 :: rest) = none := by
      simp [min_aqi_of, haqinil, pyMin]
    obtain ⟨d0, hd0, _⟩ := hdur r0 (by simp)
    obtain ⟨m, hm⟩ : ∃ m, pyMin ((r0 :: rest).filterMap (·.duration_s)) = some m := by
      rcases hds : (r0 :: rest).filterMap (·.duration_s) with _ | ⟨x, xs⟩
      · exact absurd (List.filterMap_eq_nil_iff.mp hds r0 (by simp))
          (by simp [hd0])
      · exact ⟨xs.foldl min x, by rw [hds]; rfl⟩
    have hmpos : 0 < m := by
      obtain ⟨r, hrmem, hreq⟩ := List.mem_filterMap.mp (pyMin_mem hm)
      obtain ⟨d, hd, hpos⟩ := hdur r hrmem
      rw [hd] at hreq
      exact (Option.some.injEq _ _ ▸ hreq) ▸ hpos
    have hminD : min_duration_of (r0 :: rest) = m := by
      simp [min_duration_of, hm]
    have hscore : ∀ r ∈ r0 :: rest,
        scoreOf (min_duration_of (r0 :: rest)) (min_aqi_of (r0 :: rest)) r
          = r.duration_s.getD 0 / m := by
      intro r hr
      simp [scoreOf, haqi r hr, hminA, hminD, ne_of_gt hmpos]
    have hcomp : ∀ a ∈ r0 :: rest, ∀ b ∈ r0 :: rest,
        scoreLE (min_duration_of (r0 :: rest)) (min_aqi_of (r0 :: rest)) a b
          = durationLE a b := by
      intro a ha b hb
      rw [scoreLE, hscore a ha, hscore b hb, durationLE]
      exact decide_eq_decide.mpr (div_le_div_iff_of_pos_right hmpos)
    have hsort := insertionSort_congr
      (scoreLE (min_duration_of (r0 :: rest)) (min_aqi_of (r0 :: rest)))
      durationLE (r0 :: rest) hcomp
    simp only [rank_routes_best, List.isEmpty_cons, if_false, Bool.false_eq_true]
    rw [hsort]

/-- Witness for C6 amended at two candidates with durations 2 and 1. -/
theorem rank_all_aqi_missing_sorts_by_duration_witness :
    rank_routes_best [⟨some 2, none, 0⟩, ⟨some 1, none, 1⟩] 2
      = (insertionSort durationLE
          [⟨some 2, none, 0⟩, ⟨some 1, none, 1⟩]).take 2 :=
  rank_all_aqi_missing_sorts_by_duration _ 2
    (by
      intro r hr
      fin_cases hr <;> rfl)
    (by
      intro r hr
      fin_cases hr
      · exact ⟨2, rfl, by norm_num⟩
      · exact ⟨1, rfl, by norm_num⟩)

/-! ### Route geometry sampling (`routes.py` `sample_points_along_route`,
lines 195-211) -/

/-- Helper for the Python slice `l[::step]`: `k` counts down to the next
    picked element. -/
def everyNthAux {α : Type} (step : Nat) : List α → Nat → List α
  | [], _ => []
  | a :: rest, 0 => a :: everyNthAux step rest (step - 1)
  | _ :: rest, Nat.succ k => everyNthAux step rest k

/-- The Python slice `l[::step]` for `step ≥ 1`: elements at indices
    `0, step, 2*step, ...`. -/
def everyNth {α : Type} (l : List α) (step : Nat) : List α :=
  everyNthAux step l 0

/-- `sample_points_along_route(coords, max_points)`: lists of length at
    most `max_points` are returned unchanged; otherwise pick every
    `max(1, len // max_points)`-th point starting at index 0, append the
    final coordinate if the last picked point differs from it, and
    truncate to `max_points` entries. -/
def sample_points_along_route (coords : List Coord) (max_points : Nat) :
    List Coord :=
  if coords.isEmpty then []
  else if coords.length ≤ max_points then coords
  else
    let step := max 1 (coords.length / max_points)
    let sampled := everyNth coords step
    let sampled2 :=
      if sampled.getLast? = coords.getLast? then sampled
      else sampled ++ coords.getLast?.toList
    sampled2.take max_points

/-- C5: sampling is the identity on lists of length at most `maxPoints`;
    on longer lists it takes every `stride`-th point with
    `stride = floor(len / maxPoints)`, appends the final coordinate when
    the last picked point is not it, and truncates to `maxPoints`; the
    result always retains the first coordinate, while the final
    coordinate can be lost to the truncation (last conjuncts: a length-8
    list sampled to 3 points loses its endpoint `(7,7)`). -/
theorem sample_points_spec (coords : List Coord) (m : Nat) (hm : 1 ≤ m) :
    (coords.length ≤ m → sample_points_along_route coords m = coords) ∧
    (m < coords.length →
      sample_points_along_route coords m =
        (if (everyNth coords (coords.length / m)).getLast? = coords.getLast?
         then everyNth coords (coords.length / m)
         else everyNth coords (coords.length / m)
                ++ coords.getLast?.toList).take m ∧
      (sample_points_along_route coords m).head? = coords.head?) ∧
    sample_points_along_route
        [((0:ℚ), (0:ℚ)), (1, 1), (2, 2), (3, 3), (4, 4), (5, 5), (6, 6),
         (7, 7)] 3
      = [(0, 0), (2, 2), (4, 4)] ∧
    ((7:ℚ), (7:ℚ)) ∉ sample_points_along_route
        [((0:ℚ), (0:ℚ)), (1, 1), (2, 2), (3, 3), (4, 4), (5, 5), (6, 6),
         (7, 7)] 3 := by
  refine ⟨?_, ?_, by decide, by decide⟩
  · intro hlen
    cases coords with
    | nil => rfl
    | cons c0 cs =>
        have h1 : ((c0 :: cs) : List Coord).isEmpty = false := rfl
        simp only [sample_points_along_route, h1, Bool.false_eq_true, if_false]
        rw [if_pos hlen]
  · intro hlen
    have hstep : max 1 (coords.length / m) = coords.length / m :=
      max_eq_right ((Nat.one_le_div_iff hm).mpr (le_of_lt hlen))
    cases coords with
    | nil => simp at hlen
    | cons c0 cs =>
        have hnotle : ¬ (c0 :: cs).length ≤ m := not_le.mpr hlen
        constructor
        · simp only [sample_points_along_route, List.isEmpty_cons,
            Bool.false_eq_true, if_false, hstep]
          rw [if_neg hnotle]
        · obtain ⟨k, rfl⟩ : ∃ k, m = k + 1 := ⟨m - 1, by omega⟩
          simp only [sample_points_along_route, List.isEmpty_cons,
            Bool.false_eq_true, if_false]
          rw [if_neg hnotle]
          simp only [everyNth, everyNthAux]
          split <;> simp [List.take_succ_cons]

/-- Witness for C5: identity on a short list, and the sampling formula
    plus first-coordinate retention on a length-8 list with limit 3. -/
theorem sample_points_spec_witness :
    sample_points_along_route [((1:ℚ), (2:ℚ))] 3 = [((1:ℚ), (2:ℚ))] ∧
    (sample_points_along_route
        [((0:ℚ), (0:ℚ)), (1, 1), (2, 2), (3, 3), (4, 4), (5, 5), (6, 6),
         (7, 7)] 3).head?
      = some ((0:ℚ), (0:ℚ)) :=
  ⟨(sample_points_spec [((1:ℚ), (2:ℚ))] 3 (by norm_num)).1 (by decide),
   ((sample_points_spec _ 3 (by norm_num)).2.1 (by decide)).2⟩

/-! ### Route segmentation (`routes.py` `split_route_into_segments`,
lines 214-236) -/

/-- The index range of segment `i` when splitting `n` coordinates into
    `k` parts: start `⌊i(n-1)/k⌋`, raw end `⌊(i+1)(n-1)/k⌋`; an end not
    exceeding the start is extended to `start + 1` clamped to `n - 1`. -/
def segment_range (n k i : Nat) : Nat × Nat :=
  let s := i * (n - 1) / k
  let e0 := (i + 1) * (n - 1) / k
  (s, if e0 ≤ s then min (n - 1) (s + 1) else e0)

/-- `split_route_into_segments(coords, segments)`: lists with fewer than
    two coordinates give no segments; otherwise segment `i` of `segments`
    is the slice `coords[start:end+1]` for the computed index range, and
    slices with fewer than 2 points are dropped. -/
def split_route_into_segments (coords : List Coord) (segments : Nat) :
    List (List Coord) :=
  if coords.length < 2 then []
  else
    (List.range segments).filterMap (fun i =>
      let start_idx := i * (coords.length - 1) / segments
      let end_idx0 := (i + 1) * (coords.length - 1) / segments
      let end_idx := if end_idx0 ≤ start_idx
        then min (coords.length - 1) (start_idx + 1) else end_idx0
      let seg := (coords.drop start_idx).take (end_idx + 1 - start_idx)
      if 2 ≤ seg.length then some seg else none)

lemma seg_start_lt (n k i : Nat) (hn : 2 ≤ n) (hk : 1 ≤ k) (hi : i < k) :
    i * (n - 1) / k < n - 1 := by
  rw [Nat.div_lt_iff_lt_mul hk, Nat.mul_comm (n - 1) k]
  exact (Nat.mul_lt_mul_right (by omega)).mpr hi

lemma seg_e0_le (n k i : Nat) (hk : 1 ≤ k) (hi : i < k) :
    (i + 1) * (n - 1) / k ≤ n - 1 := by
  calc (i + 1) * (n - 1) / k ≤ k * (n - 1) / k :=
        Nat.div_le_div_right (Nat.mul_le_mul_right _ (by omega))
    _ = n - 1 := Nat.mul_div_cancel_left _ hk

lemma seg_range_bounds (n k i : Nat) (hn : 2 ≤ n) (hk : 1 ≤ k) (hi : i < k) :
    (segment_range n k i).1 + 1 ≤ (segment_range n k i).2 ∧
    (segment_range n k i).2 ≤ n - 1 := by
  have hs := seg_start_lt n k i hn hk hi
  have he0 := seg_e0_le n k i hk hi
  unfold segment_range
  dsimp only
  split_ifs with h <;> constructor <;> omega

lemma segment_cover (n k : Nat) (hn : 2 ≤ n) (hk : 1 ≤ k) (j : Nat)
    (hj : j < n) :
    ∃ i < k, (segment_range n k i).1 ≤ j ∧ j ≤ (segment_range n k i).2 := by
  have hn1 : 0 < n - 1 := by omega
  set i0 := j * k / (n - 1) with hi0
  have hik : min (k - 1) i0 < k := by omega
  refine ⟨min (k - 1) i0, hik, ?_, ?_⟩
  all_goals
    have hpart1 : min (k - 1) i0 * (n - 1) / k ≤ j := by
      have h1 : min (k - 1) i0 * (n - 1) ≤ j * k := by
        calc min (k - 1) i0 * (n - 1) ≤ i0 * (n - 1) :=
              Nat.mul_le_mul_right _ (min_le_right _ _)
          _ ≤ j * k := Nat.div_mul_le_self (j * k) (n - 1)
      have h2 := Nat.div_le_div_right (c := k) h1
      rwa [Nat.mul_div_cancel _ hk] at h2
  · unfold segment_range
    dsimp only
    exact hpart1
  · have hje0 : j ≤ (min (k - 1) i0 + 1) * (n - 1) / k := by
      rcases le_total (k - 1) i0 with hc | hc
      · rw [min_eq_left hc]
        have hk1 : k - 1 + 1 = k := by omega
        rw [hk1, Nat.mul_div_cancel_left _ hk]
        omega
      · rw [min_eq_right hc]
        have hlt : j * k < (i0 + 1) * (n - 1) :=
          (Nat.div_lt_iff_lt_mul hn1).mp (by omega)
        rw [Nat.le_div_iff_mul_le hk]
        omega
    have hs_le := seg_start_lt n k (min (k - 1) i0) hn hk hik
    unfold segment_range
    dsimp only
    split_ifs with h <;> omega

/-- Turn a `filterMap` whose function always succeeds into a `map`. -/
lemma filterMap_eq_map_of_some {α β : Type} (f : α → Option β) (g : α → β)
    (l : List α) (h : ∀ a ∈ l, f a = some (g a)) :
    l.filterMap f = l.map g := by
  induction l with
  | nil => rfl
  | cons a t ih =>
      rw [List.filterMap_cons, h a (by simp), List.map_cons,
        ih (fun x hx => h x (by simp [hx]))]

/-- C4 counterexample to the claim as stated: a non-empty single-point
    list yields no segments at all, so the segments do not cover the
    original index range (the sole coordinate appears in no segment). -/
theorem split_singleton_no_coverage :
    split_route_into_segments [((0:ℚ), (0:ℚ))] 1 = [] ∧
    ¬ ∃ seg ∈ split_route_into_segments [((0:ℚ), (0:ℚ))] 1,
        ((0:ℚ), (0:ℚ)) ∈ seg := by
  decide

/-- C4 amended: for every coordinate list with at least two coordinates
    and positive `segmentCount`, splitting returns at most `segmentCount`
    segments, each with at least two coordinates; the output is exactly
    the slice of each claimed index range
    `[⌊i(n-1)/k⌋, ⌊(i+1)(n-1)/k⌋]` (end extended to `start+1` clamped to
    `n-1` when it would not exceed the start); the ranges cover every
    index of the input; and adjacent segments overlap at their boundary
    (the next segment starts no later than the previous one ends, and
    starts are monotone). -/
theorem split_segments_spec (coords : List Coord) (k : Nat)
    (hn : 2 ≤ coords.length) (hk : 1 ≤ k) :
    (split_route_into_segments coords k).length ≤ k ∧
    (∀ seg ∈ split_route_into_segments coords k, 2 ≤ seg.length) ∧
    split_route_into_segments coords k
      = (List.range k).map (fun i =>
          (coords.drop (segment_range coords.length k i).1).take
            ((segment_range coords.length k i).2 + 1
              - (segment_range coords.length k i).1)) ∧
    (∀ j < coords.length, ∃ i < k,
        (segment_range coords.length k i).1 ≤ j ∧
        j ≤ (segment_range coords.length k i).2) ∧
    (∀ i, i + 1 < k →
        (segment_range coords.length k (i + 1)).1
            ≤ (segment_range coords.length k i).2 ∧
        (segment_range coords.length k i).1
            ≤ (segment_range coords.length k (i + 1)).1) := by
  have hslice : ∀ i < k,
      ((coords.drop (segment_range coords.length k i).1).take
          ((segment_range coords.length k i).2 + 1
            - (segment_range coords.length k i).1)).length
        = (segment_range coords.length k i).2 + 1
            - (segment_range coords.length k i).1 := by
    intro i hi
    obtain ⟨hlo, hhi⟩ := seg_range_bounds coords.length k i hn hk hi
    rw [List.length_take, List.length_drop]
    omega
  have heq : split_route_into_segments coords k
      = (List.range k).map (fun i =>
          (coords.drop (segment_range coords.length k i).1).take
            ((segment_range coords.length k i).2 + 1
              - (segment_range coords.length k i).1)) := by
    rw [split_route_into_segments, if_neg (by omega)]
    refine filterMap_eq_map_of_some _ _ _ ?_
    intro i hi
    have hik := List.mem_range.mp hi
    obtain ⟨hlo, hhi⟩ := seg_range_bounds coords.length k i hn hk hik
    have hlen := hslice i hik
    simp only [segment_range] at hlo hhi hlen ⊢
    rw [if_pos (by omega : 2 ≤ _)]
  refine ⟨?_, ?_, heq, segment_cover coords.length k hn hk, ?_⟩
  · rw [heq, List.length_map, List.length_range]
  · intro seg hseg
    rw [heq] at hseg
    obtain ⟨i, hi, rfl⟩ := List.mem_map.mp hseg
    have hik := List.mem_range.mp hi
    obtain ⟨hlo, hhi⟩ := seg_range_bounds coords.length k i hn hk hik
    rw [hslice i hik]
    omega
  · intro i hi
    have hs := seg_start_lt coords.length k i hn hk (by omega)
    constructor
    · unfold segment_range
      dsimp only
      split_ifs with h <;> omega
    · unfold segment_range
      dsimp only
      exact Nat.div_le_div_right (Nat.mul_le_mul_right _ (by omega))

/-- Witness for C4 amended: splitting three points into two segments
    yields exactly the two claimed slices. -/
theorem split_segments_spec_witness :
    split_route_into_segments [((0:ℚ), (0:ℚ)), (1, 1), (2, 2)] 2
      = (List.range 2).map (fun i =>
          (([((0:ℚ), (0:ℚ)), (1, 1), (2, 2)] : List Coord).drop
              (segment_range 3 2 i).1).take
            ((segment_range 3 2 i).2 + 1 - (segment_range 3 2 i).1)) :=
  (split_segments_spec [((0:ℚ), (0:ℚ)), (1, 1), (2, 2)] 2
    (by norm_num) (by norm_num)).2.2.1

/-! ### Point-quality lookup with cache (`routes.py` `get_aqi_for_point`,
lines 252-260)

The external provider call (`asyncio.to_thread(get_aqi_for_point_sync,
lat, lon)` — a stub for the WAQI API, which per its `Optional[float]`
contract may fail) is a function parameter `provider`.  The cache key
`f"{lat:.4f},{lon:.4f}"` is modelled as the pair of the two coordinates
rounded to 4 decimal places (the string encoding is injective in these). -/

/-- TTL of the quality cache: 30 minutes. -/
def AQI_TTL : ℚ := 30 * 60

/-- A coordinate rounded to 4 decimal places, as an integer number of
    ten-thousandths (models the `%.4f` formatting). -/
def round4 (q : ℚ) : ℤ := round (q * 10000)

/-- The quality-cache key of a coordinate. -/
def aqi_key (lat lon : ℚ) : ℤ × ℤ := (round4 lat, round4 lon)

/-- `get_aqi_for_point(lat, lon)`: look the rounded key up in the cache;
    Python's `if cached is not None` conflates a cache miss with a stored
    `None`, hence the `Option.join`.  On an effective miss the provider
    is consulted and its result — failure included — is stored with
    `AQI_TTL`. -/
def get_aqi_for_point (provider : ℚ → ℚ → Option ℚ)
    (cache : CacheMap (ℤ × ℤ) (Option ℚ)) (now lat lon : ℚ) :
    Option ℚ × CacheMap (ℤ × ℤ) (Option ℚ) :=
  let res := cache_get cache now (aqi_key lat lon)
  match res.1.join with
  | some v => (some v, res.2)
  | none =>
      let aqi := provider lat lon
      (aqi, cache_set res.2 now (aqi_key lat lon) AQI_TTL aqi)

/-- C2 counterexample to the claim as stated: with an empty cache and a
    provider that fails, the call leaves a failure entry in the quality
    cache — the cache does have an entry for the key, storing `none`. -/
theorem get_aqi_caches_failure :
    cache_lookup ((get_aqi_for_point (fun _ _ => none) [] 0 0 0).2)
        (aqi_key 0 0) ≠ none := by
  have h : (get_aqi_for_point (fun _ _ => none)
        ([] : CacheMap (ℤ × ℤ) (Option ℚ)) 0 0 0).2
      = cache_set [] 0 (aqi_key 0 0) AQI_TTL none := rfl
  rw [h, cache_lookup_set_self]
  simp

/-- C2 amended: on an effective cache miss (no entry, expired entry, or
    an entry storing a failure — the latter showing a stored failure is
    never served), the provider is consulted and its result, failure
    included, is stored under the key with TTL `AQI_TTL`; a value served
    from the cache is always a present (non-absent) reading. -/
theorem get_aqi_failure_cached_not_served (provider : ℚ → ℚ → Option ℚ)
    (cache : CacheMap (ℤ × ℤ) (Option ℚ)) (now lat lon : ℚ) :
    ((cache_get cache now (aqi_key lat lon)).1.join = none →
      (get_aqi_for_point provider cache now lat lon).1 = provider lat lon ∧
      cache_lookup (get_aqi_for_point provider cache now lat lon).2
          (aqi_key lat lon)
        = some (now + AQI_TTL, provider lat lon)) ∧
    (∀ v : ℚ, (cache_get cache now (aqi_key lat lon)).1.join = some v →
      (get_aqi_for_point provider cache now lat lon).1 = some v) := by
  constructor
  · intro hmiss
    constructor
    · rw [get_aqi_for_point]
      simp only [hmiss]
    · rw [get_aqi_for_point]
      simp only [hmiss]
      exact cache_lookup_set_self _ _ _ _ _
  · intro v hhit
    rw [get_aqi_for_point]
    simp only [hhit]

/-- Witness for C2 amended: a failing provider on an empty cache returns
    the failure and stores it under the key. -/
theorem get_aqi_failure_cached_not_served_witness :
    (get_aqi_for_point (fun _ _ => none) [] 0 0 0).1 = none ∧
    cache_lookup ((get_aqi_for_point (fun _ _ => none) [] 0 0 0).2)
        (aqi_key 0 0)
      = some ((0:ℚ) + AQI_TTL, none) :=
  (get_aqi_failure_cached_not_served (fun _ _ => none) [] 0 0 0).1 rfl

/-! ### Route-level quality aggregation (`routes.py`
`aggregate_route_aqi_async`, lines 263-278)

The concurrent per-point lookups (`asyncio.gather`) return one
`Optional[float]` per sampled point, recombined in original index order;
the per-point lookup is abstracted as `lookup`. -/

/-- `aggregate_route_aqi_async(coords)`: sample up to 6 points, look each
    up, drop the failures, and return the arithmetic mean of the present
    values, or absent when there are none. -/
def aggregate_route_aqi (lookup : Coord → Option ℚ) (coords : List Coord) :
    Option ℚ :=
  let sampled := sample_points_along_route coords 6
  if sampled.isEmpty then none
  else
    let values := (sampled.map lookup).filterMap id
    if values.isEmpty then none
    else some (values.sum / values.length)

/-- The per-point results of the demonstration scenario:
    `[60, 70, absent, 80]`. -/
def demoLookup : Coord → Option ℚ := fun p =>
  if p = ((0:ℚ), (0:ℚ)) then some 60
  else if p = ((1:ℚ), (1:ℚ)) then some 70
  else if p = ((2:ℚ), (2:ℚ)) then none
  else if p = ((3:ℚ), (3:ℚ)) then some 80
  else none

/-- C8: the aggregate is absent exactly when every per-point lookup
    failed; a present aggregate is the arithmetic mean of exactly the
    present values; and sample results `[60, 70, absent, 80]` yield
    `70`. -/
theorem aggregate_mean_of_present (lookup : Coord → Option ℚ)
    (coords : List Coord) :
    (aggregate_route_aqi lookup coords = none ↔
      ∀ p ∈ sample_points_along_route coords 6, lookup p = none) ∧
    (∀ q : ℚ, aggregate_route_aqi lookup coords = some q →
      q = (((sample_points_along_route coords 6).map lookup).filterMap
              id).sum
          / ((((sample_points_along_route coords 6).map lookup).filterMap
              id).length : ℚ)) ∧
    aggregate_route_aqi demoLookup
        [((0:ℚ), (0:ℚ)), (1, 1), (2, 2), (3, 3)] = some 70 := by
  refine ⟨?_, ?_, ?_⟩
  · rw [aggregate_route_aqi]
    by_cases hs : (sample_points_along_route coords 6).isEmpty
    · simp only [hs, if_true]
      rw [List.isEmpty_iff] at hs
      simp [hs]
    · simp only [hs, Bool.false_eq_true, if_false]
      by_cases hv : (((sample_points_along_route coords 6).map
          lookup).filterMap id).isEmpty
      · simp only [hv, if_true, true_iff]
        rw [List.isEmpty_iff, List.filterMap_eq_nil_iff] at hv
        intro p hp
        have := hv (lookup p) (List.mem_map_of_mem lookup hp)
        simpa using this
      · simp only [hv, Bool.false_eq_true, if_false]
        constructor
        · intro hcon
          exact absurd hcon (by simp)
        · intro hall
          exfalso
          apply hv
          rw [List.isEmpty_iff, List.filterMap_eq_nil_iff]
          intro o ho
          obtain ⟨p, hp, rfl⟩ := List.mem_map.mp ho
          simp [hall p hp]
  · intro q hq
    rw [aggregate_route_aqi] at hq
    by_cases hs : (sample_points_along_route coords 6).isEmpty
    · simp [hs] at hq
    · simp only [hs, Bool.false_eq_true, if_false] at hq
      by_cases hv : (((sample_points_along_route coords 6).map
          lookup).filterMap id).isEmpty
      · rw [if_pos hv] at hq
        exact absurd hq (by simp)
      · simp only [hv, Bool.false_eq_true, if_false,
          Option.some.injEq] at hq
        exact hq.symm
  · have hstep : aggregate_route_aqi demoLookup
        [((0:ℚ), (0:ℚ)), (1, 1), (2, 2), (3, 3)]
      = some (([60, 70, 80] : List ℚ).sum
          / (([60, 70, 80] : List ℚ).length : ℚ)) := rfl
    rw [hstep]
    norm_num

/-- Witness for C8: applying the mean characterization to the
    demonstration scenario gives `70 = (60 + 70 + 80) / 3`. -/
theorem aggregate_mean_of_present_witness :
    (70 : ℚ)
      = (((sample_points_along_route
            [((0:ℚ), (0:ℚ)), (1, 1), (2, 2), (3, 3)] 6).map
          demoLookup).filterMap id).sum
        / ((((sample_points_along_route
            [((0:ℚ), (0:ℚ)), (1, 1), (2, 2), (3, 3)] 6).map
          demoLookup).filterMap id).length : ℚ) :=
  (aggregate_mean_of_present demoLookup
      [((0:ℚ), (0:ℚ)), (1, 1), (2, 2), (3, 3)]).2.1 70
    (aggregate_mean_of_present demoLookup
      [((0:ℚ), (0:ℚ)), (1, 1), (2, 2), (3, 3)]).2.2

/-! ### Coordinate-string resolution (`geocoding.py` `_parse_coordinates`
and `geocode_place`, lines 10-69)

The regular expression
`^\s*(-?\d+(\.\d+)?)\s*,\s*(-?\d+(\.\d+)?)\s*$` and the `float(...)`
conversions are modelled by an explicit character-level parser producing
exact rationals. -/

namespace Geocoding

/-- The `\s` whitespace class (ASCII part). -/
def isPySpace (c : Char) : Bool :=
  c == ' ' || c == '\t' || c == '\n' || c == '\r' ||
    c == Char.ofNat 11 || c == Char.ofNat 12

def dropSpaces (s : List Char) : List Char := s.dropWhile isPySpace

/-- Numeric value of a run of decimal digits. -/
def digitsToNat (ds : List Char) : Nat :=
  ds.foldl (fun n c => 10 * n + (c.toNat - 48)) 0

/-- Parse `-?\d+(\.\d+)?` at the front of `s`, returning its rational
    value and the unconsumed rest. -/
def parseNumber (s : List Char) : Option (ℚ × List Char) :=
  let (neg, s1) :=
    match s with
    | '-' :: t => (true, t)
    | _ => (false, s)
  let intDigits := s1.takeWhile (·.isDigit)
  if intDigits.isEmpty then none
  else
    let s2 := s1.drop intDigits.length
    let (val, s3) :=
      match s2 with
      | '.' :: t =>
          let fracDigits := t.takeWhile (·.isDigit)
          if fracDigits.isEmpty then ((digitsToNat intDigits : ℚ), s2)
          else ((digitsToNat intDigits : ℚ)
                  + (digitsToNat fracDigits : ℚ)
                    / (10 ^ fracDigits.length : ℚ),
                t.drop fracDigits.length)
      | _ => ((digitsToNat intDigits : ℚ), s2)
    some (if neg then -val else val, s3)

/-- Match the whole two-number comma-separated pattern against `place`,
    returning the two parsed numbers in input order. -/
def parseTwoNumbers (place : String) : Option (ℚ × ℚ) :=
  match parseNumber (dropSpaces place.toList) with
  | none => none
  | some (a, r1) =>
      match dropSpaces r1 with
      | ',' :: r2 =>
          match parseNumber (dropSpaces r2) with
          | none => none
          | some (b, r3) =>
              if (dropSpaces r3).isEmpty then some (a, b) else none
      | _ => none

/-- `_parse_coordinates(place)`: read the two numbers as (lat, lon) when
    that ordering is in range, else as (lon, lat) when that is, else
    fail; the result is GeoJSON-style `(lon, lat)`. -/
def _parse_coordinates (place : String) : Option (ℚ × ℚ) :=
  match parseTwoNumbers place with
  | none => none
  | some (a, b) =>
      if -90 ≤ a ∧ a ≤ 90 ∧ -180 ≤ b ∧ b ≤ 180 then some (b, a)
      else if -180 ≤ a ∧ a ≤ 180 ∧ -90 ≤ b ∧ b ≤ 90 then some (a, b)
      else none

/-- The outcome of `geocode_place`: a directly parsed coordinate (no
    network involved), or delegation to the external geocoding service. -/
inductive Resolution where
  | coord : ℚ × ℚ → Resolution
  | geocodeService : Resolution
deriving DecidableEq

/-- `geocode_place(place)`: return the parsed coordinate pair when the
    text parses, otherwise fall through to the network geocoding path. -/
def geocode_place (place : String) : Resolution :=
  match _parse_coordinates place with
  | some c => .coord c
  | none => .geocodeService

end Geocoding

/-- C3: for a text whose two comma-separated numbers parse as `a` and
    `b`: when `(lat := a, lon := b)` is in range (including the case in
    which both orderings are valid — the first number is preferred as
    latitude) the resolver returns it; when only `(lat := b, lon := a)`
    is in range the resolver returns that; when neither ordering is in
    range the resolver falls through to the geocoding service; and the
    text `"28.61, 77.20"` resolves without any network call to
    latitude `28.61`, longitude `77.20`. -/
theorem parse_coordinates_ordering (place : String) (a b : ℚ)
    (h : Geocoding.parseTwoNumbers place = some (a, b)) :
    ((-90 ≤ a ∧ a ≤ 90 ∧ -180 ≤ b ∧ b ≤ 180) →
      Geocoding._parse_coordinates place = some (b, a)) ∧
    (¬ (-90 ≤ a ∧ a ≤ 90 ∧ -180 ≤ b ∧ b ≤ 180) →
      (-180 ≤ a ∧ a ≤ 180 ∧ -90 ≤ b ∧ b ≤ 90) →
      Geocoding._parse_coordinates place = some (a, b)) ∧
    (¬ (-90 ≤ a ∧ a ≤ 90 ∧ -180 ≤ b ∧ b ≤ 180) →
      ¬ (-180 ≤ a ∧ a ≤ 180 ∧ -90 ≤ b ∧ b ≤ 90) →
      Geocoding.geocode_place place = Geocoding.Resolution.geocodeService) ∧
    Geocoding.geocode_place "28.61, 77.20"
      = Geocoding.Resolution.coord ((77.20 : ℚ), (28.61 : ℚ)) := by
  refine ⟨?_, ?_, ?_, ?_⟩
  · intro h1
    simp only [Geocoding._parse_coordinates, h]
    rw [if_pos h1]
  · intro h1 h2
    simp only [Geocoding._parse_coordinates, h]
    rw [if_neg h1, if_pos h2]
  · intro h1 h2
    simp only [Geocoding.geocode_place, Geocoding._parse_coordinates, h]
    rw [if_neg h1, if_neg h2]
  · have hp : Geocoding.parseTwoNumbers "28.61, 77.20"
        = some ((28 : ℚ) + 61 / 100, (77 : ℚ) + 20 / 100) := rfl
    have hpc : Geocoding._parse_coordinates "28.61, 77.20"
        = some ((77 : ℚ) + 20 / 100, (28 : ℚ) + 61 / 100) := by
      simp only [Geocoding._parse_coordinates, hp]
      rw [if_pos (by norm_num)]
    have h772 : (77.20 : ℚ) = 77 + 20 / 100 := by norm_num
    have h2861 : (28.61 : ℚ) = 28 + 61 / 100 := by norm_num
    simp only [Geocoding.geocode_place, hpc, h772, h2861]

/-- Witness for C3: the text `"100, 20"` is in range only as
    (lon, lat) = (100, 20), and resolves accordingly. -/
theorem parse_coordinates_ordering_witness :
    Geocoding._parse_coordinates "100, 20" = some (100, 20) :=
  ((parse_coordinates_ordering "100, 20" 100 20 rfl).2.1
    (by norm_num) (by norm_num))

/-! ### OSRM route retrieval (`routes.py` `osrm_get_routes_cached`, lines
331-368, and the orchestrator guard of `navigate_fast` / `navigate`)

The HTTP call (`requests.get` + `raise_for_status` + `.json()`) is a
parameter `respond`; an `.error` models a raised exception.  The cache
key `f"{mode}|{coords}|{overview}|alt=...|steps=...|cs=..."` is modelled
as the tuple of its variable parts (normalized mode, the four
coordinates, and the two flags — `overview` and `continue_straight` are
constants), which the string encoding determines injectively. -/

/-- TTL of the route cache: 15 minutes. -/
def OSRM_TTL : ℚ := 15 * 60

/-- The parsed body of an OSRM response: its `code` field and its
    `routes` list, the payload type `α` left abstract. -/
structure OsrmBody (α : Type) where
  code : String
  routes : List α

/-- The variable parts of the OSRM cache key. -/
abbrev OsrmKey := String × (ℚ × ℚ × ℚ × ℚ) × Bool × Bool

/-- `mode = (mode or "car").lower().strip()`, defaulted to `"car"` when
    not one of the known profiles. -/
def normalize_mode (mode : String) : String :=
  let m0 := if mode = "" then "car" else mode
  let m1 := m0.toLower.trim
  if m1 = "car" ∨ m1 = "bike" ∨ m1 = "walk" then m1 else "car"

/-- The cache key of an OSRM request. -/
def osrm_cache_key (mode : String) (start_lat start_lon end_lat end_lon : ℚ)
    (alternatives steps : Bool) : OsrmKey :=
  (normalize_mode mode, (start_lon, start_lat, end_lon, end_lat),
   alternatives, steps)

/-- `osrm_get_routes_cached(...)`: serve a cached non-empty unexpired
    route list (`if cached:` — an empty cached list is falsy and treated
    as a miss); otherwise query the engine; a raised HTTP error
    propagates; a body whose `code` is not `"Ok"` yields `[]` without
    caching; otherwise the `routes` list — empty included — is cached
    with `OSRM_TTL` and returned. -/
def osrm_get_routes_cached {α : Type}
    (respond : Unit → Except String (OsrmBody α))
    (cache : CacheMap OsrmKey (List α)) (now : ℚ)
    (start_lat start_lon end_lat end_lon : ℚ) (mode : String)
    (alternatives steps : Bool) :
    Except String (List α × CacheMap OsrmKey (List α)) :=
  let key := osrm_cache_key mode start_lat start_lon end_lat end_lon
    alternatives steps
  let res := cache_get cache now key
  match res.1 with
  | some (r :: rs) => .ok (r :: rs, res.2)
  | _ =>
      match respond () with
      | .error e => .error e
      | .ok body =>
          if body.code = "Ok" then
            .ok (body.routes, cache_set res.2 now key OSRM_TTL body.routes)
          else
            .ok ([], res.2)

/-- The orchestrator skeleton shared by `navigate_fast` and `navigate`
    after geocoding: retrieve routes (with alternatives and steps), turn
    a raised error into a raised error, an empty route list into the
    empty "no route found" result, and otherwise process the routes. -/
def navigate_fast_osrm {α β : Type}
    (respond : Unit → Except String (OsrmBody α))
    (cache : CacheMap OsrmKey (List α)) (now : ℚ)
    (start_lat start_lon end_lat end_lon : ℚ) (mode : String)
    (process : List α → β) (empty_result : β) : Except String β :=
  match osrm_get_routes_cached respond cache now start_lat start_lon
      end_lat end_lon mode true true with
  | .error e => .error e
  | .ok (osrm_routes, _) =>
      if osrm_routes.isEmpty then .ok empty_result
      else .ok (process osrm_routes)

/-- C7: when the engine's response body carries a non-success code and
    the cache holds no servable entry, the retriever returns the empty
    list as an ordinary value (`.ok`, not an error), and the orchestrator
    turns that into the empty result rather than an exception. -/
theorem osrm_non_success_gives_empty {α : Type} (body : OsrmBody α)
    (cache : CacheMap OsrmKey (List α)) (now : ℚ)
    (start_lat start_lon end_lat end_lon : ℚ) (mode : String)
    (alt st : Bool)
    (hmiss : ∀ r rs, (cache_get cache now (osrm_cache_key mode start_lat
        start_lon end_lat end_lon alt st)).1 ≠ some (r :: rs))
    (hmiss2 : ∀ r rs, (cache_get cache now (osrm_cache_key mode start_lat
        start_lon end_lat end_lon true true)).1 ≠ some (r :: rs))
    (hcode : body.code ≠ "Ok") :
    osrm_get_routes_cached (fun _ => .ok body) cache now start_lat
        start_lon end_lat end_lon mode alt st
      = .ok ([], (cache_get cache now (osrm_cache_key mode start_lat
          start_lon end_lat end_lon alt st)).2) ∧
    ∀ (β : Type) (process : List α → β) (empty_result : β),
      navigate_fast_osrm (fun _ => .ok body) cache now start_lat start_lon
          end_lat end_lon mode process empty_result
        = .ok empty_result := by
  have hmain : ∀ a s : Bool,
      (∀ r rs, (cache_get cache now (osrm_cache_key mode start_lat
          start_lon end_lat end_lon a s)).1 ≠ some (r :: rs)) →
      osrm_get_routes_cached (fun _ => .ok body) cache now start_lat
          start_lon end_lat end_lon mode a s
        = .ok ([], (cache_get cache now (osrm_cache_key mode start_lat
            start_lon end_lat end_lon a s)).2) := by
    intro a s hm
    rw [osrm_get_routes_cached]
    rcases hc : (cache_get cache now (osrm_cache_key mode start_lat
        start_lon end_lat end_lon a s)).1 with _ | v
    · simp only [if_neg hcode]
    · rcases v with _ | ⟨r, rs⟩
      · simp only [if_neg hcode]
      · exact absurd hc (hm r rs)
  refine ⟨hmain alt st hmiss, ?_⟩
  intro β process empty_result
  rw [navigate_fast_osrm, hmain true true hmiss2]
  simp

/-- Witness for C7 at an empty cache and a body with code `"NoRoute"`. -/
theorem osrm_non_success_gives_empty_witness :
    navigate_fast_osrm (α := Nat)
        (fun _ => .ok ⟨"NoRoute", []⟩) [] 0 0 0 0 0 "car" List.length 42
      = .ok 42 :=
  (osrm_non_success_gives_empty ⟨"NoRoute", []⟩ [] 0 0 0 0 0 "car" true true
      (fun r rs h => by simp [cache_get, cache_lookup] at h)
      (fun r rs h => by simp [cache_get, cache_lookup] at h)
      (by simp)).2 Nat List.length 42

/-- C10: when the engine replies `code = "Ok"` with an empty route list
    on a clean cache miss, the empty list is stored in the cache; and a
    later call finding an unexpired cached empty list treats it as a miss
    and returns the engine's fresh answer instead of the cached value. -/
theorem osrm_empty_cached_but_not_served {α : Type} (body : OsrmBody α)
    (cache : CacheMap OsrmKey (List α)) (now : ℚ)
    (start_lat start_lon end_lat end_lon : ℚ) (mode : String)
    (alt st : Bool) :
    ((cache_get cache now (osrm_cache_key mode start_lat start_lon
        end_lat end_lon alt st)).1 = none →
      body.code = "Ok" → body.routes = [] →
      osrm_get_routes_cached (fun _ => .ok body) cache now start_lat
          start_lon end_lat end_lon mode alt st
        = .ok ([], cache_set (cache_get cache now (osrm_cache_key mode
            start_lat start_lon end_lat end_lon alt st)).2 now
            (osrm_cache_key mode start_lat start_lon end_lat end_lon alt st)
            OSRM_TTL []) ∧
      cache_lookup (cache_set (cache_get cache now (osrm_cache_key mode
            start_lat start_lon end_lat end_lon alt st)).2 now
            (osrm_cache_key mode start_lat start_lon end_lat end_lon alt st)
            OSRM_TTL [])
          (osrm_cache_key mode start_lat start_lon end_lat end_lon alt st)
        = some (now + OSRM_TTL, [])) ∧
    ((cache_get cache now (osrm_cache_key mode start_lat start_lon
        end_lat end_lon alt st)).1 = some [] →
      body.code = "Ok" →
      osrm_get_routes_cached (fun _ => .ok body) cache now start_lat
          start_lon end_lat end_lon mode alt st
        = .ok (body.routes, cache_set (cache_get cache now (osrm_cache_key
            mode start_lat start_lon end_lat end_lon alt st)).2 now
            (osrm_cache_key mode start_lat start_lon end_lat end_lon alt st)
            OSRM_TTL body.routes)) := by
  constructor
  · intro hmiss hcode hroutes
    constructor
    · rw [osrm_get_routes_cached]
      simp only [hmiss, if_pos hcode, hroutes]
    · exact cache_lookup_set_self _ _ _ _ _
  · intro hempty hcode
    rw [osrm_get_routes_cached]
    simp only [hempty, if_pos hcode]

/-- Witness for C10: a fresh miss stores the empty list; a cache holding
    an unexpired empty list is bypassed in favor of the fresh engine
    answer. -/
theorem osrm_empty_cached_but_not_served_witness :
    osrm_get_routes_cached (α := Nat) (fun _ => .ok ⟨"Ok", []⟩) [] 0 0 0 0 0
        "car" true true
      = .ok ([], cache_set (cache_get ([] : CacheMap OsrmKey (List Nat)) 0
          (osrm_cache_key "car" 0 0 0 0 true true)).2 0
          (osrm_cache_key "car" 0 0 0 0 true true) OSRM_TTL []) ∧
    osrm_get_routes_cached (α := Nat) (fun _ => .ok ⟨"Ok", [7]⟩)
        [(osrm_cache_key "car" 0 0 0 0 true true, (100, []))] 0 0 0 0 0
        "car" true true
      = .ok ([7], cache_set (cache_get
          [(osrm_cache_key "car" 0 0 0 0 true true, ((100 : ℚ), ([] : List Nat)))] 0
          (osrm_cache_key "car" 0 0 0 0 true true)).2 0
          (osrm_cache_key "car" 0 0 0 0 true true) OSRM_TTL [7]) :=
  ⟨((osrm_empty_cached_but_not_served ⟨"Ok", []⟩ [] 0 0 0 0 0 "car" true
      true).1 (by simp [cache_get, cache_lookup]) rfl rfl).1,
   (osrm_empty_cached_but_not_served ⟨"Ok", [7]⟩
      [(osrm_cache_key "car" 0 0 0 0 true true, (100, []))] 0 0 0 0 0 "car"
      true true).2
     (by simp [cache_get, cache_lookup]; norm_num) rfl⟩

end PurePath

